import Mathlib

/-!
Shallow embedding of the content-gallery server (src/server.js) and proofs
about its documented behaviour.

Conventions used throughout:
- JavaScript numbers that can be NaN are modelled as `Option Int`
  (`none` = NaN); all numeric values reached by the claims are integers.
- `created_at` is stored by the server as an ISO-8601 string and is only
  ever consumed through `new Date(x)` subtraction, so it is modelled
  directly as the epoch-milliseconds value (a `Nat`).
- A record field that may be absent on a JSON object is an `Option`.
- String primitives (`trim`, `toLowerCase`, `split`, `join`, `parseInt`)
  are modelled by structurally recursive functions over the character list
  of the string; they agree with JavaScript on the ASCII inputs the
  development uses.
-/

namespace Gallery

/-- Media kind of a post: the server writes `type: 'image'` or `type: 'video'`. -/
inductive MediaType where
  | image
  | video
deriving DecidableEq

/-- A post record as built by the photo/video upload handlers in
src/server.js (lines 349-363 and 404-419).  `views` is optional because the
server reads it defensively as `post.views || 0`.  `duration` is only
present on video posts. -/
structure Post where
  id : Int
  type : MediaType
  media_url : String
  thumbnail : String
  caption : String
  description : String
  author : String
  created_at : Nat
  views : Option Nat
  telegram_file_id : String
  width : Nat
  height : Nat
  duration : Option Nat
  file_size : Nat
deriving DecidableEq

/-- JavaScript `post.views || 0`: a missing views field counts as zero. -/
def postViews (p : Post) : Nat := p.views.getD 0

/-- The state of the posts.json backing file, abstracted to the four
outcomes that `readPosts` (src/server.js lines 59-67) distinguishes:
`fs.readFile` throws when the file is absent or unreadable, `JSON.parse`
throws on malformed text, and otherwise the stored array is returned. -/
inductive FileState where
  | absent
  | unreadable
  | malformed (raw : String)
  | valid (posts : List Post)

/-- readPosts (src/server.js lines 59-67): try to read and parse the posts
file; every failure is caught and degrades to the empty list. -/
def readPosts : FileState → List Post
  | .absent => []
  | .unreadable => []
  | .malformed _ => []
  | .valid posts => posts

/-- The stats snapshot written to stats.json.  `last_update` is the
`new Date().toISOString()` timestamp, modelled as epoch milliseconds. -/
structure Stats where
  total_posts : Nat
  total_views : Nat
  last_update : Nat
deriving DecidableEq

/-- updateStats (src/server.js lines 79-94): recompute the snapshot from the
loaded posts.  The source re-reads the posts file; under a stable snapshot
that read yields the `store` list passed here.  The accumulator mirrors
`posts.reduce((sum, post) => sum + (post.views || 0), 0)`. -/
def updateStats (store : List Post) (now : Nat) : Stats :=
  { total_posts := store.length
    total_views := store.foldl (fun sum p => sum + postViews p) 0
    last_update := now }

/-- A JavaScript number restricted to the integer values this server
produces; `none` models NaN. -/
abbrev JSNum := Option Int

/-- JavaScript subtraction with NaN propagation. -/
def jsSub : JSNum → JSNum → JSNum
  | some a, some b => some (a - b)
  | _, _ => none

/-- JavaScript addition with NaN propagation. -/
def jsAdd : JSNum → JSNum → JSNum
  | some a, some b => some (a + b)
  | _, _ => none

/-- JavaScript multiplication with NaN propagation (`0 * NaN` is NaN). -/
def jsMul : JSNum → JSNum → JSNum
  | some a, some b => some (a * b)
  | _, _ => none

/-- ECMAScript ToIntegerOrInfinity on the values this server can produce:
NaN becomes 0, integers stay themselves. -/
def jsToIntOrZero (v : JSNum) : Int := v.getD 0

/-- Resolve one bound of `Array.prototype.slice`: negative indices count
from the end (clamped at 0), non-negative ones are clamped to the length. -/
def jsSliceBound (len : Nat) (k : Int) : Nat :=
  if k < 0 then ((len : Int) + k).toNat else min k.toNat len

/-- `Array.prototype.slice(start, end)` on a list, with JS index coercion
(NaN bounds coerce to 0). -/
def jsSlice {α : Type} (l : List α) (s e : JSNum) : List α :=
  let f := jsSliceBound l.length (jsToIntOrZero s)
  let t := jsSliceBound l.length (jsToIntOrZero e)
  (l.drop f).take (t - f)

/-- The JavaScript whitespace characters relevant to `parseInt` leading
whitespace stripping (ASCII whitespace plus NBSP). -/
def isJsWhitespace (c : Char) : Bool :=
  c = ' ' || c = '\t' || c = '\n' || c = '\r' || c = '\x0b' || c = '\x0c' || c = '\u00A0'

/-- Lower-case an ASCII letter, as `String.prototype.toLowerCase` does on
the ASCII inputs this development uses. -/
def charToLower (c : Char) : Char :=
  if 'A' ≤ c ∧ c ≤ 'Z' then Char.ofNat (c.toNat + 32) else c

/-- JavaScript `s.toLowerCase()` on ASCII strings. -/
def jsToLower (s : String) : String := String.mk (s.toList.map charToLower)

/-- JavaScript `s.trim()`: strip leading and trailing whitespace. -/
def jsTrim (s : String) : String :=
  String.mk (((s.toList.dropWhile isJsWhitespace).reverse.dropWhile isJsWhitespace).reverse)

/-- Split a character list at every position where the predicate holds,
keeping empty groups, as `String.prototype.split` does. -/
def splitCharsP (p : Char → Bool) : List Char → List (List Char)
  | [] => [[]]
  | c :: rest =>
      let r := splitCharsP p rest
      if p c then [] :: r
      else
        match r with
        | [] => [[c]]
        | g :: gs => (c :: g) :: gs

/-- JavaScript `s.split(sep)` for a one-character separator; the empty
string splits to one empty field. -/
def splitOnChar (sep : Char) (s : String) : List String :=
  (splitCharsP (fun c => c = sep) s.toList).map String.mk

/-- JavaScript `parts.join(' ')`. -/
def joinChars (sep : Char) : List (List Char) → List Char
  | [] => []
  | [g] => g
  | g :: gs => g ++ sep :: joinChars sep gs

/-- Join string fields with single spaces, as `captionParts.join(' ')`. -/
def jsJoinSpace (parts : List String) : String :=
  String.mk (joinChars ' ' (parts.map String.toList))

/-- JavaScript `caption.split(' ')[0]` (split on a single space always
yields at least one field). -/
def jsFirstField (s : String) : String := (splitOnChar ' ' s).headD ""

/-- Value of a decimal digit, `none` for any other character. -/
def decDigitVal (c : Char) : Option Nat :=
  if '0' ≤ c ∧ c ≤ '9' then some (c.toNat - '0'.toNat) else none

/-- Value of a hexadecimal digit, `none` for any other character. -/
def hexDigitVal (c : Char) : Option Nat :=
  if '0' ≤ c ∧ c ≤ '9' then some (c.toNat - '0'.toNat)
  else if 'a' ≤ c ∧ c ≤ 'f' then some (c.toNat - 'a'.toNat + 10)
  else if 'A' ≤ c ∧ c ≤ 'F' then some (c.toNat - 'A'.toNat + 10)
  else none

/-- Accumulate the longest prefix of digits of the given radix; `none`
(that is, NaN) when that prefix is empty. -/
def parseDigits (radix : Nat) (digVal : Char → Option Nat) (cs : List Char) : Option Nat :=
  let ds := cs.takeWhile (fun c => (digVal c).isSome)
  if ds.isEmpty then none
  else some (ds.foldl (fun a c => a * radix + (digVal c).getD 0) 0)

/-- ECMAScript `parseInt(string)` with no radix argument, as used by the
server: skip leading whitespace, read an optional sign, treat a `0x`/`0X`
prefix as hexadecimal and anything else as decimal, and take the longest
valid digit prefix; `none` models NaN. -/
def parseIntJs (s : String) : Option Int :=
  let cs := s.toList.dropWhile isJsWhitespace
  let signed : Int × List Char :=
    match cs with
    | '-' :: rest => (-1, rest)
    | '+' :: rest => (1, rest)
    | _ => (1, cs)
  let mag : Option Nat :=
    match signed.2 with
    | '0' :: 'x' :: rest => parseDigits 16 hexDigitVal rest
    | '0' :: 'X' :: rest => parseDigits 16 hexDigitVal rest
    | body => parseDigits 10 decDigitVal body
  mag.map (fun m => signed.1 * (m : Int))

/-- Comparator used by GET /api/posts (src/server.js lines 105-107):
`(a, b) => new Date(b.created_at) - new Date(a.created_at)` keeps `a`
before `b` exactly when `b.created_at ≤ a.created_at` (newest first). -/
def postGe (a b : Post) : Prop := b.created_at ≤ a.created_at

instance : DecidableRel postGe := fun a b => Nat.decLe b.created_at a.created_at

instance : IsTotal Post postGe := ⟨fun a b => Nat.le_total b.created_at a.created_at⟩

instance : IsTrans Post postGe := ⟨fun _ _ _ hab hbc => Nat.le_trans hbc hab⟩

/-- The sort applied by the list endpoints.  JavaScript `Array.prototype.sort`
is stable, and a stable sort under the total preorder `postGe` is unique, so
it is modelled by the stable insertion sort under `postGe`. -/
def sortPosts (posts : List Post) : List Post := List.insertionSort postGe posts

/-- Query string of GET /api/posts; a missing parameter is `none`. -/
structure PostsQuery where
  page : Option String
  limit : Option String

/-- `Math.ceil(posts.length / limitNum)`; the non-finite results (NaN from a
NaN limit, Infinity or NaN from a zero limit) are collapsed to `none`. -/
def jsCeilDiv (len : Nat) (limit : JSNum) : JSNum :=
  match limit with
  | none => none
  | some l =>
      if l = 0 then none
      else if 0 < l then some (((len : Int) + l - 1) / l)
      else some (-((len : Int) / (-l)))

/-- Response body of GET /api/posts. -/
structure PostsResponse where
  success : Bool
  posts : List Post
  total : Nat
  page : JSNum
  total_pages : JSNum
  stats : Stats

/-- GET /api/posts (src/server.js lines 99-129).  The destructuring defaults
`page = 1, limit = 12` apply only when the query value is absent; a supplied
value goes through `parseInt` (on the default numbers 1 and 12, `parseInt`
returns them unchanged, so the absent case is modelled as the parsed
value directly). -/
def apiPosts (store : List Post) (q : PostsQuery) (now : Nat) : PostsResponse :=
  let sortedPosts := sortPosts store
  let pageNum : JSNum := match q.page with | none => some 1 | some s => parseIntJs s
  let limitNum : JSNum := match q.limit with | none => some 12 | some s => parseIntJs s
  let startIndex := jsMul (jsSub pageNum (some 1)) limitNum
  let endIndex := jsAdd startIndex limitNum
  let paginatedPosts := jsSlice sortedPosts startIndex endIndex
  { success := true
    posts := paginatedPosts
    total := store.length
    page := pageNum
    total_pages := jsCeilDiv store.length limitNum
    stats := updateStats store now }

/-- Number of pages needed to cover the whole store at a given page size:
the ceiling of length / limit. -/
def numPages (store : List Post) (limit : Nat) : Nat :=
  (store.length + limit - 1) / limit

/-- In-place update of the first store entry whose id matches, mirroring
`posts.findIndex(p => p.id === postId)` followed by the increment of
`posts[postIndex].views = (posts[postIndex].views || 0) + 1`. -/
def bumpViews (p : Post) : Post := { p with views := some (postViews p + 1) }

/-- Increment the views of the first post whose id equals `n`; leave the
store unchanged when no post matches (`findIndex` returns -1). -/
def incrementFirst (n : Int) : List Post → List Post
  | [] => []
  | p :: rest => if p.id = n then bumpViews p :: rest else p :: incrementFirst n rest

/-- POST /api/posts/:id/view (src/server.js lines 150-167): parse the id
with `parseInt`, bump the first matching post and persist it, and always
answer with a `success: true` envelope.  A NaN id (`p.id === NaN` is always
false) and an unmatched id both leave the store untouched. -/
def incrementView (store : List Post) (idStr : String) : List Post × Bool :=
  match parseIntJs idStr with
  | none => (store, true)
  | some n => (incrementFirst n store, true)

/-- The sending Telegram user; either name field may be absent. -/
structure TgUser where
  username : Option String
  first_name : Option String
deriving DecidableEq

/-- isAdmin (src/server.js lines 194-199): a falsy username (absent or the
empty string) is rejected, otherwise the lower-cased username must appear in
the allow-list (which startup code has already lower-cased). -/
def isAdmin (admins : List String) (u : TgUser) : Bool :=
  match u.username with
  | none => false
  | some name => if name = "" then false else admins.contains (jsToLower name)

/-- JavaScript `a || b` on an optional string: absent and empty are falsy. -/
def jsStrOr (a : Option String) (b : String) : String :=
  match a with
  | some s => if s = "" then b else s
  | none => b

/-- Author display name: `ctx.from.username || ctx.from.first_name || 'Admin'`. -/
def authorName (u : TgUser) : String :=
  jsStrOr u.username (jsStrOr u.first_name "Admin")

/-- One resolution variant of an inbound Telegram photo. -/
structure PhotoSize where
  file_id : String
  width : Nat
  height : Nat
  file_size : Nat
deriving DecidableEq

/-- The single video variant of an inbound Telegram video message. -/
structure VideoInfo where
  file_id : String
  duration : Nat
  width : Nat
  height : Nat
  file_size : Nat
deriving DecidableEq

/-- Per-admin conversation state (`ctx.session`): the staged post and the
flag that the handler is awaiting a description. -/
structure Session where
  pendingPost : Option Post
  waitingForDescription : Bool
deriving DecidableEq

/-- Replies the media handlers can send. -/
inductive MediaReply where
  | accessDenied
  | usageGuidance
  | descriptionPrompt
  | processingError
deriving DecidableEq

/-- Photo handler (src/server.js lines 324-377).  `caption.split(' ')[0]`
splits on single space characters; `photo.pop()` takes the last (highest
resolution) variant, and an empty variant list makes the later field access
throw into the catch block, which replies with the processing error and
leaves the session as it was.  `link` stands for the external
`ctx.telegram.getFileLink` resolution. -/
def handlePhoto (admins : List String) (u : TgUser) (caption : Option String)
    (photos : List PhotoSize) (link : String → String) (now : Nat)
    (sess : Option Session) : Option Session × MediaReply :=
  if ¬ isAdmin admins u then (sess, .accessDenied)
  else
    let cap := caption.getD ""
    let command := jsFirstField cap
    if command ≠ "/upload" then (sess, .usageGuidance)
    else
      let captionParts := (splitOnChar ' ' cap).tail
      let joined := jsTrim (jsJoinSpace captionParts)
      let actualCaption := if joined = "" then "Untitled Post" else joined
      match photos.getLast? with
      | none => (sess, .processingError)
      | some photo =>
          let fileUrl := link photo.file_id
          let newPost : Post :=
            { id := (now : Int)
              type := .image
              media_url := fileUrl
              thumbnail := fileUrl
              caption := actualCaption
              description := ""
              author := authorName u
              created_at := now
              views := some 0
              telegram_file_id := photo.file_id
              width := photo.width
              height := photo.height
              duration := none
              file_size := photo.file_size }
          (some ⟨some newPost, true⟩, .descriptionPrompt)

/-- Video handler (src/server.js lines 380-433), mirroring the photo handler
with the video-specific fields, empty thumbnail and default caption. -/
def handleVideo (admins : List String) (u : TgUser) (caption : Option String)
    (video : VideoInfo) (link : String → String) (now : Nat)
    (sess : Option Session) : Option Session × MediaReply :=
  if ¬ isAdmin admins u then (sess, .accessDenied)
  else
    let cap := caption.getD ""
    let command := jsFirstField cap
    if command ≠ "/upload" then (sess, .usageGuidance)
    else
      let captionParts := (splitOnChar ' ' cap).tail
      let joined := jsTrim (jsJoinSpace captionParts)
      let actualCaption := if joined = "" then "Untitled Video" else joined
      let fileUrl := link video.file_id
      let newPost : Post :=
        { id := (now : Int)
          type := .video
          media_url := fileUrl
          thumbnail := ""
          caption := actualCaption
          description := ""
          author := authorName u
          created_at := now
          views := some 0
          telegram_file_id := video.file_id
          width := video.width
          height := video.height
          duration := some video.duration
          file_size := video.file_size }
      (some ⟨some newPost, true⟩, .descriptionPrompt)

/-- Replies the text handler can send. -/
inductive TextReply where
  | noReply
  | uploadConfirmation (postType caption description author : String) (id : Int)
  | saveError
deriving DecidableEq

/-- Text handler (src/server.js lines 436-486).  When no session is waiting
for a description the message is ignored.  Otherwise the description is
taken (a trimmed, case-insensitive "skip" clears it), the completed record
is prepended to the store and persisted, and the session is cleared; the
source then reads `ctx.session.pendingPost` again, which it just set to
null, so building the confirmation throws a TypeError that the catch block
turns into the save-error reply (clearing the already-cleared session).
The intended confirmation branch is kept below but is unreachable. -/
def handleText (sess : Option Session) (text : String) (store : List Post) :
    Option Session × List Post × TextReply :=
  match sess with
  | none => (none, store, .noReply)
  | some s =>
      if s.waitingForDescription = false then (some s, store, .noReply)
      else
        let description := jsTrim text
        match s.pendingPost with
        | none => (some ⟨none, false⟩, store, .saveError)
        | some p =>
            let committed :=
              { p with description := if jsToLower description = "skip" then "" else description }
            let store' := committed :: store
            let cleared : Session := ⟨none, false⟩
            match cleared.pendingPost with
            | none => (some cleared, store', .saveError)
            | some post =>
                (some cleared, store', .uploadConfirmation
                  (match post.type with | .video => "video" | .image => "photo")
                  post.caption post.description post.author post.id)

/-- Whether a session value is awaiting a description. -/
def sessionWaiting : Option Session → Bool
  | none => false
  | some s => s.waitingForDescription

/-- The claim reading of C5: the first whitespace-delimited token of a
caption (maximal runs of non-whitespace characters are the tokens). -/
def firstWhitespaceToken (s : String) : Option String :=
  (((splitCharsP (fun c => c.isWhitespace) s.toList).map String.mk).filter (fun t => t ≠ "")).head?

/-- The claim reading of C10: the value of the longest leading run of
decimal digits of the raw id string. -/
def leadingDecimal (s : String) : Option Nat :=
  parseDigits 10 decDigitVal s.toList

/-- A concrete post used by concrete-input theorems below. -/
def demoPost : Post :=
  { id := 123
    type := .image
    media_url := "https://files.example/a"
    thumbnail := "https://files.example/a"
    caption := "Sunset"
    description := ""
    author := "admin"
    created_at := 2000
    views := some 0
    telegram_file_id := "fileA"
    width := 640
    height := 480
    duration := none
    file_size := 1024 }

/-- A second concrete post with an older timestamp. -/
def demoPostOld : Post :=
  { demoPost with id := 45, caption := "Beach", created_at := 1000, telegram_file_id := "fileB" }

/-- A concrete post whose id is 0, for the parseInt hex-prefix theorem. -/
def demoPostZero : Post :=
  { demoPost with id := 0, caption := "Zero", created_at := 500, telegram_file_id := "fileC" }

/-- One-post store. -/
def demoStore1 : List Post := [demoPost]

/-- Two-post store, newest first by created_at. -/
def demoStore2 : List Post := [demoPost, demoPostOld]

/-- A concrete admin user. -/
def demoUser : TgUser := { username := some "Admin", first_name := some "Ada" }

/-- The lower-cased allow-list used by concrete-input theorems. -/
def demoAdmins : List String := ["admin", "owner"]

/-- A concrete resolution of Telegram file links. -/
def demoLink (fid : String) : String := String.append "https://files.example/" fid

/-- A concrete photo variant. -/
def demoPhotoSize : PhotoSize :=
  { file_id := "fileA", width := 640, height := 480, file_size := 1024 }

end Gallery

namespace Gallery

theorem foldl_add_postViews (l : List Post) (a : Nat) :
    l.foldl (fun sum p => sum + postViews p) a = a + (l.map postViews).sum := by
  induction l generalizing a with
  | nil => simp
  | cons p rest ih =>
      rw [List.foldl_cons, ih, List.map_cons, List.sum_cons]
      ring

/-- C8: immediately after the stats recompute returns a snapshot, its
total_views is the sum of the views fields over the store (a missing views
field counting as zero) and its total_posts is the number of posts. -/
theorem updateStats_totals (store : List Post) (now : Nat) :
    (updateStats store now).total_views = (store.map postViews).sum
      ∧ (updateStats store now).total_posts = store.length := by
  refine ⟨?_, rfl⟩
  show store.foldl (fun sum p => sum + postViews p) 0 = (store.map postViews).sum
  rw [foldl_add_postViews]
  omega

/-- C9: the store load operation is total; an absent, unreadable or
malformed backing file yields the empty list, and a valid file yields the
full stored sequence. -/
theorem readPosts_never_raises :
    readPosts .absent = [] ∧ readPosts .unreadable = []
      ∧ (∀ raw, readPosts (.malformed raw) = [])
      ∧ ∀ ps, readPosts (.valid ps) = ps :=
  ⟨rfl, rfl, fun _ => rfl, fun _ => rfl⟩

/-- C1 (code bug): on a committed upload the handler does not send the
confirmation with the post's caption, description, author and id.  The
source clears session.pendingPost to null before reading it back for the
confirmation, so building the confirmation throws and the catch block sends
the save-error reply instead, while the commit itself has already happened. -/
theorem commit_confirmation_is_save_error :
    handleText (some ⟨some demoPost, true⟩) "A lovely sunset" []
      = (some ⟨none, false⟩, [{ demoPost with description := "A lovely sunset" }], .saveError) := by
  decide

/-- C3: a text message consumed while awaiting a description commits the
pending post at the head of the store, with empty description when the
trimmed text is a case-insensitive skip and with the trimmed text
otherwise. -/
theorem commit_description_skip_or_trimmed (p : Post) (text : String) (store : List Post) :
    (jsToLower (jsTrim text) = "skip" →
      (handleText (some ⟨some p, true⟩) text store).2.1 = { p with description := "" } :: store)
    ∧ (jsToLower (jsTrim text) ≠ "skip" →
      (handleText (some ⟨some p, true⟩) text store).2.1
        = { p with description := jsTrim text } :: store) := by
  constructor <;> intro h <;> simp [handleText, h]

theorem commit_description_skip_or_trimmed_witness :
    (handleText (some ⟨some demoPost, true⟩) " SKIP " []).2.1
        = [{ demoPost with description := "" }]
    ∧ (handleText (some ⟨some demoPost, true⟩) " nice " []).2.1
        = [{ demoPost with description := "nice" }] :=
  ⟨(commit_description_skip_or_trimmed demoPost " SKIP " []).1 (by decide),
   (commit_description_skip_or_trimmed demoPost " nice " []).2 (by decide)⟩

/-- C4: the text handler never touches the store while the session is idle
(no waiting flag), and whenever it runs from the awaiting-description state
it ends with the pending post cleared and the waiting flag off, on the
success path and on the failure path alike. -/
theorem upload_state_machine_idle_invariant (sess : Option Session) (text : String)
    (store : List Post) :
    (sessionWaiting sess = false → handleText sess text store = (sess, store, .noReply))
    ∧ (sessionWaiting sess = true →
        (handleText sess text store).1 = some ⟨none, false⟩) := by
  constructor
  · intro h
    match sess with
    | none => rfl
    | some s =>
        simp only [sessionWaiting] at h
        simp [handleText, h]
  · intro h
    match sess with
    | none => simp [sessionWaiting] at h
    | some s =>
        simp only [sessionWaiting] at h
        cases hp : s.pendingPost <;> simp [handleText, h, hp]

theorem upload_state_machine_idle_invariant_witness :
    handleText none "hello" demoStore1 = (none, demoStore1, .noReply)
    ∧ (handleText (some ⟨some demoPost, true⟩) "desc" []).1 = some ⟨none, false⟩ :=
  ⟨(upload_state_machine_idle_invariant none "hello" demoStore1).1 rfl,
   (upload_state_machine_idle_invariant (some ⟨some demoPost, true⟩) "desc" []).2 rfl⟩

theorem incrementFirst_no_match (n : Int) (l : List Post) (h : ∀ q ∈ l, q.id ≠ n) :
    incrementFirst n l = l := by
  induction l with
  | nil => rfl
  | cons q rest ih =>
      simp [incrementFirst, h q (by simp), ih (fun r hr => h r (by simp [hr]))]

theorem incrementFirst_append (n : Int) (pre : List Post) (p : Post) (post : List Post)
    (hpre : ∀ q ∈ pre, q.id ≠ n) (hp : p.id = n) :
    incrementFirst n (pre ++ p :: post) = pre ++ bumpViews p :: post := by
  induction pre with
  | nil => simp [incrementFirst, hp]
  | cons q rest ih =>
      have hq : q.id ≠ n := hpre q (by simp)
      simp [incrementFirst, hq, ih (fun r hr => hpre r (by simp [hr]))]

/-- C7: the view endpoint always answers success; an id that matches no
stored post leaves the store unchanged; and N sequential calls on an id
whose first match is a post with a views counter raise that counter by
exactly N, leaving every other post unchanged. -/
theorem incrementView_found_and_missing (idStr : String) :
    (∀ store, (incrementView store idStr).2 = true)
    ∧ (∀ store, (∀ n, parseIntJs idStr = some n → ∀ p ∈ store, p.id ≠ n) →
        (incrementView store idStr).1 = store)
    ∧ (∀ (n : Int) (pre : List Post) (p : Post) (post : List Post) (v N : Nat),
        parseIntJs idStr = some n → (∀ q ∈ pre, q.id ≠ n) → p.id = n → p.views = some v →
        (fun s => (incrementView s idStr).1)^[N] (pre ++ p :: post)
          = pre ++ { p with views := some (v + N) } :: post) := by
  refine ⟨?_, ?_, ?_⟩
  · intro store
    cases h : parseIntJs idStr <;> simp [incrementView, h]
  · intro store hmiss
    cases h : parseIntJs idStr with
    | none => simp [incrementView, h]
    | some n => simp [incrementView, h, incrementFirst_no_match n store (hmiss n h)]
  · intro n pre p post v N h hpre hp hv
    induction N with
    | zero =>
        simp only [Function.iterate_zero, id_eq, Nat.add_zero]
        cases p with
        | mk pid pty pmu pth pc pd pa pca pvs ptf pw ph pdu pfs =>
            simp only at hv
            subst hv
            rfl
    | succ N ihN =>
        rw [Function.iterate_succ_apply', ihN]
        have hid : ({ p with views := some (v + N) } : Post).id = n := hp
        have hstep := incrementFirst_append n pre { p with views := some (v + N) } post hpre hid
        simp only [incrementView, h]
        rw [hstep]
        simp [bumpViews, postViews]
        omega

theorem incrementView_found_and_missing_witness :
    (fun s => (incrementView s "123").1)^[2] demoStore2
      = [{ demoPost with views := some 2 }, demoPostOld] := by
  have h := (incrementView_found_and_missing "123").2.2 123 [] demoPost [demoPostOld] 0 2
    (by decide) (by simp) rfl rfl
  simpa using h

/-- C10 counterexample: the decimal reading of the id string is not what
the endpoint uses.  For the id string 0x10 the longest leading run of
decimal digits has value 0 and a post with id 0 exists, yet the endpoint
leaves the store unchanged because parseInt with no radix reads 0x10 as
hexadecimal 16. -/
theorem view_id_hex_counterexample :
    leadingDecimal "0x10" = some 0
    ∧ demoPostZero.id = 0
    ∧ parseIntJs "0x10" = some 16
    ∧ (incrementView [demoPostZero] "0x10").1 = [demoPostZero] := by
  decide

/-- C10 amended: the endpoint parses the id with ECMAScript parseInt (no
radix): leading whitespace and an optional sign are skipped and a 0x/0X
prefixed string is read as hexadecimal, otherwise the longest leading run
of decimal digits is used; an id whose parseInt value equals a stored
post's id increments the first such post, and an id parseInt cannot parse
at all is a no-op. -/
theorem incrementView_parseInt_semantics (idStr : String) :
    (parseIntJs idStr = none → ∀ store, (incrementView store idStr).1 = store)
    ∧ (∀ (n : Int) (pre : List Post) (p : Post) (post : List Post),
        parseIntJs idStr = some n → (∀ q ∈ pre, q.id ≠ n) → p.id = n →
        (incrementView (pre ++ p :: post) idStr).1 = pre ++ bumpViews p :: post) := by
  constructor
  · intro h store
    simp [incrementView, h]
  · intro n pre p post h hpre hp
    simp [incrementView, h, incrementFirst_append n pre p post hpre hp]

theorem incrementView_parseInt_semantics_witness :
    (incrementView [demoPost] "123abc").1 = [{ demoPost with views := some 1 }] := by
  have h := (incrementView_parseInt_semantics "123abc").2 123 [] demoPost []
    (by decide) (by simp) rfl
  simpa [bumpViews, postViews, demoPost] using h

end Gallery

namespace Gallery

theorem jsSub_none_left (x : JSNum) : jsSub none x = none := by cases x <;> rfl

theorem jsAdd_none_left (x : JSNum) : jsAdd none x = none := by cases x <;> rfl

theorem jsMul_none_left (x : JSNum) : jsMul none x = none := by cases x <;> rfl

theorem jsMul_none_right (x : JSNum) : jsMul x none = none := by cases x <;> rfl

theorem jsSlice_none_none {α : Type} (l : List α) : jsSlice l none none = [] := by
  simp [jsSlice, jsToIntOrZero, jsSliceBound]

theorem jsSlice_nonneg {α : Type} (l : List α) (a b : Nat) :
    jsSlice l (some (a : Int)) (some ((a : Int) + (b : Int))) = (l.drop a).take b := by
  have ha : ¬ ((a : Int) < 0) := by omega
  have hab : ¬ ((a : Int) + (b : Int) < 0) := by omega
  have h1 : ((a : Int)).toNat = a := by omega
  have h2 : ((a : Int) + (b : Int)).toNat = a + b := by omega
  simp only [jsSlice, jsToIntOrZero, Option.getD_some, jsSliceBound, if_neg ha, if_neg hab,
    h1, h2]
  rcases Nat.le_total a l.length with h | h
  · rw [min_eq_left h, List.take_eq_take]
    simp only [List.length_drop]
    omega
  · rw [min_eq_right h, List.drop_eq_nil_of_le h, List.drop_eq_nil_of_le (Nat.le_refl _)]
    simp

/-- C2 fails as stated: with one stored post and the malformed page value
abc, the endpoint returns an empty posts list, not the first 12 posts that
the defaults produce. -/
theorem malformed_page_counterexample :
    (apiPosts demoStore1 ⟨some "abc", none⟩ 0).posts = []
    ∧ (apiPosts demoStore1 ⟨none, none⟩ 0).posts = [demoPost]
    ∧ (apiPosts demoStore1 ⟨some "abc", none⟩ 0).posts
        ≠ (apiPosts demoStore1 ⟨none, none⟩ 0).posts := by
  refine ⟨?_, ?_, ?_⟩ <;> decide

/-- C2 amended: a missing page/limit value falls back to the defaults
(page 1, limit 12, so the first 12 sorted posts), but a page or limit value
that parseInt cannot parse makes the slice bounds NaN, which Array.slice
coerces to 0, so the endpoint returns an empty posts list instead. -/
theorem apiPosts_defaults_and_malformed (store : List Post) (now : Nat) :
    ((apiPosts store ⟨none, none⟩ now).posts = (sortPosts store).take 12)
    ∧ (∀ s ls, parseIntJs s = none →
        (apiPosts store ⟨some s, ls⟩ now).posts = [])
    ∧ (∀ ps s, parseIntJs s = none →
        (apiPosts store ⟨ps, some s⟩ now).posts = []) := by
  refine ⟨?_, ?_, ?_⟩
  · have key := jsSlice_nonneg (sortPosts store) 0 12
    norm_num at key
    simp only [apiPosts, jsSub, jsMul, jsAdd]
    norm_num
    exact key
  · intro s ls h
    cases ls <;>
      simp [apiPosts, h, jsSub_none_left, jsMul_none_left, jsAdd_none_left, jsSlice_none_none]
  · intro ps s h
    cases ps <;>
      simp [apiPosts, h, jsMul_none_right, jsAdd_none_left, jsSlice_none_none]

theorem apiPosts_defaults_and_malformed_witness :
    (apiPosts demoStore1 ⟨some "zz", none⟩ 0).posts = [] :=
  (apiPosts_defaults_and_malformed demoStore1 0).2.1 "zz" none (by decide)

/-- C5 fails as stated: the first whitespace-delimited token of the caption
with a tab after the command is exactly /upload, yet both media handlers
reply with the usage guidance and stage no pending post, because the source
splits the caption on single space characters only. -/
theorem caption_tab_token_counterexample :
    firstWhitespaceToken "/upload\thi" = some "/upload"
    ∧ handlePhoto demoAdmins demoUser (some "/upload\thi") [demoPhotoSize] demoLink 0 none
        = (none, .usageGuidance)
    ∧ handleVideo demoAdmins demoUser (some "/upload\thi") ⟨"fileV", 3, 640, 480, 9⟩ demoLink 0 none
        = (none, .usageGuidance) := by
  refine ⟨?_, ?_, ?_⟩ <;> decide

/-- C5 amended: the media handlers tokenize the caption by splitting on
single space characters (not on arbitrary whitespace).  When the first
space-delimited field is not exactly /upload they reply with the usage
guidance and stage nothing; otherwise they stage a pending post whose
caption is the remaining fields joined with spaces and trimmed, with the
kind-specific default substituted when that remainder is empty. -/
theorem media_caption_space_split (admins : List String) (u : TgUser)
    (hadmin : isAdmin admins u = true) (cap : Option String)
    (photos : List PhotoSize) (photo : PhotoSize) (hlast : photos.getLast? = some photo)
    (video : VideoInfo) (link : String → String) (now : Nat) (sess : Option Session) :
    ((jsFirstField (cap.getD "") ≠ "/upload" →
        handlePhoto admins u cap photos link now sess = (sess, .usageGuidance)
        ∧ handleVideo admins u cap video link now sess = (sess, .usageGuidance)))
    ∧ (jsFirstField (cap.getD "") = "/upload" →
        (∃ p, (handlePhoto admins u cap photos link now sess).1 = some ⟨some p, true⟩
          ∧ p.caption =
              (if jsTrim (jsJoinSpace (splitOnChar ' ' (cap.getD "")).tail) = ""
               then "Untitled Post"
               else jsTrim (jsJoinSpace (splitOnChar ' ' (cap.getD "")).tail)))
        ∧ (∃ p, (handleVideo admins u cap video link now sess).1 = some ⟨some p, true⟩
          ∧ p.caption =
              (if jsTrim (jsJoinSpace (splitOnChar ' ' (cap.getD "")).tail) = ""
               then "Untitled Video"
               else jsTrim (jsJoinSpace (splitOnChar ' ' (cap.getD "")).tail)))) := by
  constructor
  · intro h
    constructor
    · simp [handlePhoto, hadmin, h]
    · simp [handleVideo, hadmin, h]
  · intro h
    constructor
    · exact ⟨_, by simp [handlePhoto, hadmin, h, hlast]; rfl, rfl⟩
    · exact ⟨_, by simp [handleVideo, hadmin, h]; rfl, rfl⟩

theorem media_caption_space_split_witness :
    ∃ p, (handlePhoto demoAdmins demoUser (some "/upload Sunset") [demoPhotoSize]
          demoLink 7 none).1 = some ⟨some p, true⟩
      ∧ p.caption = "Sunset" := by
  obtain ⟨⟨p, hp1, hp2⟩, -⟩ :=
    (media_caption_space_split demoAdmins demoUser (by decide) (some "/upload Sunset")
      [demoPhotoSize] demoPhotoSize (by decide) ⟨"fileV", 3, 640, 480, 9⟩ demoLink 7 none).2
      (by decide)
  exact ⟨p, hp1, by rw [hp2]; decide⟩

theorem flatten_chunks {α : Type} (l : List α) (n : Nat) (k : Nat) :
    ((List.range k).map (fun i => (l.drop (i * n)).take n)).flatten = l.take (k * n) := by
  induction k with
  | zero => simp
  | succ k ih =>
      rw [List.range_succ, List.map_append, List.flatten_append, ih]
      simp only [List.map_cons, List.map_nil, List.flatten_cons, List.flatten_nil,
        List.append_nil]
      rw [← List.take_add]
      congr 1
      ring

theorem le_ceil_mul (len n : Nat) (hn : 0 < n) : len ≤ ((len + n - 1) / n) * n := by
  rw [Nat.mul_comm]
  have h := Nat.div_add_mod (len + n - 1) n
  have h2 : (len + n - 1) % n < n := Nat.mod_lt _ hn
  omega

/-- C6: for a stable store snapshot and any page size of at least one, the
concatenation of the posts of pages 1, 2, ... up to the page count equals
the sorted store, which is a permutation of the stored posts (no
duplicates, no omissions) ordered by creation timestamp descending. -/
theorem pagination_reproduces_sorted_store (store : List Post) (now : Nat)
    (limitStr : String) (limit : Nat) (hls : parseIntJs limitStr = some (limit : Int))
    (hl : 1 ≤ limit) (pageStr : Nat → String)
    (hps : ∀ i, 1 ≤ i → i ≤ numPages store limit →
        parseIntJs (pageStr i) = some (i : Int)) :
    (((List.range (numPages store limit)).map
        (fun i => (apiPosts store ⟨some (pageStr (i + 1)), some limitStr⟩ now).posts)).flatten
      = sortPosts store)
    ∧ (sortPosts store).Perm store
    ∧ List.Pairwise (fun a b => b.created_at ≤ a.created_at) (sortPosts store) := by
  refine ⟨?_, List.perm_insertionSort postGe store, List.sorted_insertionSort postGe store⟩
  have hlen : (sortPosts store).length = store.length :=
    (List.perm_insertionSort postGe store).length_eq
  have hmap : ∀ i ∈ List.range (numPages store limit),
      (apiPosts store ⟨some (pageStr (i + 1)), some limitStr⟩ now).posts
        = ((sortPosts store).drop (i * limit)).take limit := by
    intro i hi
    have hi' : i < numPages store limit := List.mem_range.mp hi
    have hp := hps (i + 1) (by omega) (by omega)
    have key := jsSlice_nonneg (sortPosts store) (i * limit) limit
    have e1 : ((i * limit : Nat) : Int) = (((i + 1 : Nat) : Int) - 1) * (limit : Int) := by
      push_cast
      ring
    rw [e1] at key
    simp only [apiPosts, hp, hls, jsSub, jsMul, jsAdd]
    exact key
  rw [List.map_congr_left hmap, flatten_chunks]
  apply List.take_of_length_le
  rw [hlen]
  exact le_ceil_mul store.length limit hl

theorem pagination_reproduces_sorted_store_witness :
    ((List.range (numPages demoStore2 1)).map
        (fun i => (apiPosts demoStore2 ⟨some (toString (i + 1)), some "1"⟩ 0).posts)).flatten
      = sortPosts demoStore2 := by
  refine (pagination_reproduces_sorted_store demoStore2 0 "1" 1 (by decide) (by decide)
      (fun i => toString i) ?_).1
  intro i h1 h2
  have h2' : i ≤ 2 := h2
  interval_cases i <;> decide

end Gallery
